import Mathlib

/-!
Shallow embedding of the iptables batch provider (package provider) and the
marked-connection listener (package markedconn) of trireme-lib.

Go maps are modelled as association lists with unique keys; map writes update
the existing key in place or append a new binding, map deletes remove the
binding.  Calls forwarded to the passthrough iptables implementation are
recorded as an explicit trace so that forwarding behaviour is provable.
-/

namespace Trireme

/-- Lookup of a key in an association list, modelling a read of a Go map. -/
def lookupA {α : Type} : List (String × α) → String → Option α
  | [], _ => none
  | (k, v) :: rest, key => if k = key then some v else lookupA rest key

/-- Write of a key in an association list, modelling a Go map assignment:
the existing binding is replaced, or a new binding is appended. -/
def setA {α : Type} : List (String × α) → String → α → List (String × α)
  | [], key, v => [(key, v)]
  | (k, w) :: rest, key, v =>
      if k = key then (k, v) :: rest else (k, w) :: setA rest key v

/-- Delete of a key from an association list, modelling the Go delete builtin. -/
def eraseA {α : Type} : List (String × α) → String → List (String × α)
  | [], _ => []
  | (k, w) :: rest, key => if k = key then rest else (k, w) :: eraseA rest key

/-- Chains of one table: chain name mapped to its ordered rule list. -/
abbrev ChainMap := List (String × List String)

/-- The rules field of BatchProvider: table name mapped to its chains. -/
abbrev RulesMap := List (String × ChainMap)

/-- One call forwarded to the passthrough BaseIPTables implementation. -/
inductive PCall where
  | append (table chain : String) (rulespec : List String)
  | insert (table chain : String) (pos : Int) (rulespec : List String)
  | delete (table chain : String) (rulespec : List String)
  | listChains (table : String)
  | clearChain (table chain : String)
  | deleteChain (table chain : String)
  | newChain (table chain : String)
deriving DecidableEq

/-- The passthrough BaseIPTables collaborator: each operation returns the
error value (none meaning nil) of the underlying iptables command, and
ListChains additionally returns the list of chains. -/
structure BaseIPT where
  append : String → String → List String → Option String
  insert : String → String → Int → List String → Option String
  delete : String → String → List String → Option String
  listChains : String → List String × Option String
  clearChain : String → String → Option String
  deleteChain : String → String → Option String
  newChain : String → String → Option String

/-- State of a BatchProvider: the cached rules and the fixed batch table set. -/
structure BatchState where
  rules : RulesMap
  batchTables : List String
deriving DecidableEq

/-- Result of one mutation operation: the returned error value, the rules
cache after the call, and the trace of passthrough calls made. -/
structure StepOut where
  err : Option String
  rules : RulesMap
  calls : List PCall
deriving DecidableEq

/-- Result of ListChains: the returned value, the rules cache after the
call, and the trace of passthrough calls made. -/
structure ListOut where
  res : List String × Option String
  rules : RulesMap
  calls : List PCall
deriving DecidableEq

/-- The two lazy-creation statements at the top of Append and Insert:
create the table map if absent, then the chain entry if absent. -/
def ensureChain (r : RulesMap) (table chain : String) : RulesMap :=
  let r1 := match lookupA r table with
    | none => setA r table []
    | some _ => r
  let cm := (lookupA r1 table).getD []
  match lookupA cm chain with
  | none => setA r1 table (setA cm chain [])
  | some _ => r1

/-- The rule list currently cached for a table and chain (empty if absent). -/
def getRules (r : RulesMap) (table chain : String) : List String :=
  (lookupA ((lookupA r table).getD []) chain).getD []

/-- BatchProvider.Append. -/
def Append (ipt : BaseIPT) (s : BatchState) (table chain : String)
    (rulespec : List String) : StepOut :=
  if table ∈ s.batchTables then
    let r := ensureChain s.rules table chain
    let cm := (lookupA r table).getD []
    let cur := (lookupA cm chain).getD []
    let rule := String.intercalate " " rulespec
    { err := none, rules := setA r table (setA cm chain (cur ++ [rule])), calls := [] }
  else
    { err := ipt.append table chain rulespec, rules := s.rules,
      calls := [PCall.append table chain rulespec] }

/-- Go builtin copy over the suffixes of one list: copy(l[d:], l[s:]) with
s ≤ d, which moves min(len-d, len-s) = len-d elements and has memmove
(copy-from-a-snapshot) semantics. -/
def goCopyTail (l : List String) (d s : Nat) : List String :=
  l.take d ++ (l.drop s).take (l.length - d)

/-- The position logic of BatchProvider.Insert on the current rule list.
none models the runtime panic of the negative slice bound pos-2 (reachable
exactly when the final branch runs with pos ≤ 0). -/
def insertAtPos (l : List String) (pos : Int) (rule : String) : Option (List String) :=
  if pos = 1 then
    some (rule :: l)
  else if (l.length : Int) < pos then
    some (l ++ [rule])
  else if pos < 2 then
    none
  else
    let l2 := l ++ ["newvalue"]
    let l3 := goCopyTail l2 (pos - 1).toNat (pos - 2).toNat
    some (l3.set (pos - 1).toNat rule)

/-- BatchProvider.Insert; none models the runtime panic. -/
def Insert (ipt : BaseIPT) (s : BatchState) (table chain : String) (pos : Int)
    (rulespec : List String) : Option StepOut :=
  if table ∈ s.batchTables then
    let r := ensureChain s.rules table chain
    let cm := (lookupA r table).getD []
    let cur := (lookupA cm chain).getD []
    let rule := String.intercalate " " rulespec
    match insertAtPos cur pos rule with
    | none => none
    | some l =>
        some { err := none, rules := setA r table (setA cm chain l), calls := [] }
  else
    some { err := ipt.insert table chain pos rulespec, rules := s.rules,
           calls := [PCall.insert table chain pos rulespec] }

/-- The range loop of BatchProvider.Delete: index of the first element equal
to the serialized rule, carrying the running index like the Go loop. -/
def firstMatchIdxAux (rule : String) : List String → Nat → Option Nat
  | [], _ => none
  | r :: rest, i => if rule == r then some i else firstMatchIdxAux rule rest (i + 1)

/-- Index of the first exact match of the serialized rule, if any. -/
def firstMatchIdx (rule : String) (l : List String) : Option Nat :=
  firstMatchIdxAux rule l 0

/-- The switch statement of BatchProvider.Delete removing index i. -/
def removeAtGo (l : List String) (i : Nat) : List String :=
  if i = 0 then
    (if l.length = 1 then [] else l.drop 1)
  else if i = l.length - 1 then
    l.take i
  else
    l.take i ++ l.drop (i + 1)

/-- BatchProvider.Delete. -/
def Delete (ipt : BaseIPT) (s : BatchState) (table chain : String)
    (rulespec : List String) : StepOut :=
  if table ∈ s.batchTables then
    match lookupA s.rules table with
    | none => { err := none, rules := s.rules, calls := [] }
    | some cm =>
      match lookupA cm chain with
      | none => { err := none, rules := s.rules, calls := [] }
      | some cur =>
        let rule := String.intercalate " " rulespec
        match firstMatchIdx rule cur with
        | none => { err := none, rules := s.rules, calls := [] }
        | some i =>
            { err := none,
              rules := setA s.rules table (setA cm chain (removeAtGo cur i)),
              calls := [] }
  else
    { err := ipt.delete table chain rulespec, rules := s.rules,
      calls := [PCall.delete table chain rulespec] }

/-- BatchProvider.ListChains: always forwarded to the passthrough applier. -/
def ListChains (ipt : BaseIPT) (s : BatchState) (table : String) : ListOut :=
  { res := ipt.listChains table, rules := s.rules,
    calls := [PCall.listChains table] }

/-- BatchProvider.ClearChain. -/
def ClearChain (ipt : BaseIPT) (s : BatchState) (table chain : String) : StepOut :=
  if table ∈ s.batchTables then
    match lookupA s.rules table with
    | none => { err := none, rules := s.rules, calls := [] }
    | some cm =>
      match lookupA cm chain with
      | none => { err := none, rules := s.rules, calls := [] }
      | some _ =>
          { err := none, rules := setA s.rules table (setA cm chain []), calls := [] }
  else
    { err := ipt.clearChain table chain, rules := s.rules,
      calls := [PCall.clearChain table chain] }

/-- BatchProvider.DeleteChain. -/
def DeleteChain (ipt : BaseIPT) (s : BatchState) (table chain : String) : StepOut :=
  if table ∈ s.batchTables then
    match lookupA s.rules table with
    | none => { err := none, rules := s.rules, calls := [] }
    | some cm =>
        { err := none, rules := setA s.rules table (eraseA cm chain), calls := [] }
  else
    { err := ipt.deleteChain table chain, rules := s.rules,
      calls := [PCall.deleteChain table chain] }

/-- BatchProvider.NewChain. -/
def NewChain (ipt : BaseIPT) (s : BatchState) (table chain : String) : StepOut :=
  if table ∈ s.batchTables then
    let r := match lookupA s.rules table with
      | none => setA s.rules table []
      | some _ => s.rules
    let cm := (lookupA r table).getD []
    { err := none, rules := setA r table (setA cm chain []), calls := [] }
  else
    { err := ipt.newChain table chain, rules := s.rules,
      calls := [PCall.newChain table chain] }

/-- BatchProvider.createDataBuffer: the iptables-restore grammar serialized
from the cached rules, table stanzas in map order. -/
def createDataBuffer (rules : RulesMap) : String :=
  String.join (rules.map fun tc =>
    "*" ++ tc.1 ++ "\n"
    ++ String.join (tc.2.map fun cc => ":" ++ cc.1 ++ " - [0:0]\n")
    ++ String.join (tc.2.map fun cc =>
        String.join (cc.2.map fun r => "-A " ++ cc.1 ++ " " ++ r ++ "\n"))
    ++ "COMMIT\n")

/-- The buffer BatchProvider.Commit hands to its commit function: none when
the batch table set is empty (Commit returns nil without serializing). -/
def commitBuffer (s : BatchState) : Option String :=
  if s.batchTables.isEmpty then none
  else some (createDataBuffer s.rules)

/-! restoreHasWait: the capability probe.  The external inputs are the result
of running the restore command with the version flag: none when the command
fails, otherwise its combined output as a character list.  The regular
expression v([0-9]+(\.[0-9]+)+) is embedded directly: leftmost match, each
quantifier greedy, which coincides with the regexp semantics because a digit
run can never absorb a dot. -/

/-- Longest digit prefix of a character list, with the remainder. -/
def takeDigits : List Char → List Char × List Char
  | [] => ([], [])
  | c :: cs =>
      if c.isDigit then
        let p := takeDigits cs
        (c :: p.1, p.2)
      else ([], c :: cs)

/-- Greedy match of the group (\.[0-9]+)+ at the head of the list, returning
the matched characters (empty when no group matches).  The fuel argument only
bounds recursion depth; every recursive step consumes at least two
characters, so fuel equal to the list length is always sufficient. -/
def matchDotGroups : Nat → List Char → List Char
  | 0, _ => []
  | n + 1, '.' :: c :: cs =>
      if c.isDigit then
        let p := takeDigits cs
        '.' :: c :: (p.1 ++ matchDotGroups n p.2)
      else []
  | _ + 1, _ => []

/-- Attempt to match [0-9]+(\.[0-9]+)+ at the head of the list (the part of
the pattern after the literal v), returning capture group 1. -/
def tryVersionAfterV (cs : List Char) : Option (List Char) :=
  let p := takeDigits cs
  if p.1.isEmpty then none
  else
    let gs := matchDotGroups p.2.length p.2
    if gs.isEmpty then none else some (p.1 ++ gs)

/-- FindStringSubmatch of v([0-9]+(\.[0-9]+)+): scan left to right for the
first position where the pattern matches, returning capture group 1. -/
def findVersionToken : List Char → Option (List Char)
  | [] => none
  | c :: cs =>
      if c = 'v' then
        match tryVersionAfterV cs with
        | some m => some m
        | none => findVersionToken cs
      else findVersionToken cs

/-- Split a character list on the dot separators, as the version parser does. -/
def splitDots : List Char → List (List Char)
  | [] => [[]]
  | c :: cs =>
      if c = '.' then [] :: splitDots cs
      else
        match splitDots cs with
        | [] => [[c]]
        | p :: ps => (c :: p) :: ps

/-- Parse a nonempty all-digit segment as a number. -/
def digitSegToNat (l : List Char) : Option Nat :=
  if l.isEmpty then none
  else if l.all Char.isDigit then
    some (l.foldl (fun acc c => acc * 10 + (c.toNat - 48)) 0)
  else none

/-- version.NewVersion on a digits-and-dots string: the numeric segments,
none when a segment is empty or not numeric. -/
def parseVersion (l : List Char) : Option (List Nat) :=
  (splitDots l).mapM digitSegToNat

/-- Segment-wise comparison of two parsed versions, shorter side padded with
zero segments, as the version library orders versions. -/
def segLt : List Nat → List Nat → Bool
  | [], ys => ys.any (fun y => decide (0 < y))
  | x :: xs, [] => if 0 < x then false else segLt xs []
  | x :: xs, y :: ys =>
      if x < y then true else if y < x then false else segLt xs ys

/-- restoreHasWait: the probe deciding whether iptables-restore supports the
wait flag.  The argument is the combined output of the version invocation,
none when the invocation failed. -/
def restoreHasWait (combinedOutput : Option (List Char)) : Bool :=
  match combinedOutput with
  | none => false
  | some out =>
    match findVersionToken out with
    | none => false
    | some m =>
      match parseVersion m with
      | none => false
      | some v =>
        match parseVersion ("1.6.2".toList) with
        | none => false
        | some minv => !(segLt v minv)

/-! Embedding of the markedconn listener (src/unnamed/part_002). -/

/-- The sockaddr structure filled by the IPv4 original-destination query:
a 16-bit family tag followed by 14 data bytes. -/
structure Sockaddr4 where
  family : Nat
  data : List Nat
deriving DecidableEq

/-- The sockaddr structure filled by the IPv6 original-destination query. -/
structure Sockaddr6 where
  family : Nat
  port : List Nat
  flowInfo : List Nat
  ip : List Nat
  scopeID : List Nat
deriving DecidableEq

def AF_INET : Nat := 2

def AF_INET6 : Nat := 10

/-- The getsockopt4 closure of getOriginalDestInternal: decode the IPv4
response given the errno of the query and the structure the kernel filled. -/
def getsockopt4 (e1 : Nat) (addr : Sockaddr4) : Except String (List Nat × Nat) :=
  if e1 ≠ 0 then
    Except.error "Failed to get original destination"
  else if addr.family ≠ AF_INET then
    Except.error "invalid address family. Expected AF_INET"
  else
    Except.ok ((addr.data.drop 2).take 4,
               (addr.data.getD 0 0) <<< 8 + addr.data.getD 1 0)

/-- The getsockopt6 closure of getOriginalDestInternal: decode the IPv6
response given the errno of the query and the structure the kernel filled. -/
def getsockopt6 (e1 : Nat) (addr : Sockaddr6) : Except String (List Nat × Nat) :=
  if e1 ≠ 0 then
    Except.error "Failed to get original destination"
  else if addr.family ≠ AF_INET6 then
    Except.error "invalid address family. Expected AF_INET6"
  else
    Except.ok (addr.ip, (addr.port.getD 0 0) <<< 8 + addr.port.getD 1 0)

/-- getOriginalDestInternal: controlOk models whether rawConn.Control itself
succeeded; e4, a4 and e6, a6 are the errno and structure the kernel query
would produce for the respective protocol. -/
def getOriginalDestInternal (v4Proto controlOk : Bool) (e4 : Nat) (a4 : Sockaddr4)
    (e6 : Nat) (a6 : Sockaddr6) : Except String (List Nat × Nat) :=
  if controlOk = false then
    Except.error "Failed to get original destination"
  else if v4Proto then
    getsockopt4 e4 a4
  else
    getsockopt6 e6 a6

/-- The connection wrapper ProxiedListener.Accept returns on success. -/
structure ProxiedConnection where
  originalIP : List Nat
  originalPort : Nat
deriving DecidableEq

/-- External outcomes seen by one call of ProxiedListener.Accept: the result
of the inner Accept, whether the accepted connection is a TCP connection,
and the result of GetOriginalDestination on it. -/
structure AcceptEnv where
  acceptResult : Except String Unit
  isTCP : Bool
  origDest : Except String (List Nat × Nat)

/-- ProxiedListener.Accept.  The second component records whether Accept
called Close on the accepted connection before returning; the source of
Accept contains no Close call on any path, so it is false on every branch. -/
def Accept (env : AcceptEnv) : Except String ProxiedConnection × Bool :=
  match env.acceptResult with
  | Except.error e => (Except.error e, false)
  | Except.ok _ =>
      if env.isTCP = false then
        (Except.error "Not a tcp connection - ignoring", false)
      else
        match env.origDest with
        | Except.error e => (Except.error e, false)
        | Except.ok d => (Except.ok { originalIP := d.1, originalPort := d.2 }, false)

/-- A concrete passthrough implementation, used to instantiate theorems at
concrete inputs. -/
def iptSample : BaseIPT where
  append := fun _ _ _ => none
  insert := fun _ _ _ _ => none
  delete := fun _ _ _ => none
  listChains := fun t => ([t], none)
  clearChain := fun _ _ => none
  deleteChain := fun _ _ => none
  newChain := fun _ _ => none

/-! Helper lemmas about the association-list model of Go maps. -/

theorem lookupA_setA_self {α : Type} (m : List (String × α)) (k : String) (v : α) :
    lookupA (setA m k v) k = some v := by
  induction m with
  | nil => simp [setA, lookupA]
  | cons p rest ih =>
      obtain ⟨k1, w⟩ := p
      by_cases h : k1 = k
      · simp [setA, h, lookupA]
      · simp [setA, h, lookupA, ih]

theorem setA_setA {α : Type} (m : List (String × α)) (k : String) (v w : α) :
    setA (setA m k v) k w = setA m k w := by
  induction m with
  | nil => simp [setA]
  | cons p rest ih =>
      obtain ⟨k1, u⟩ := p
      by_cases h : k1 = k
      · simp [setA, h]
      · simp [setA, h, ih]

/-- After the lazy-creation preamble, the cached rule list of the requested
table and chain is unchanged (absent entries read as empty either way). -/
theorem ensureChain_lookup (r : RulesMap) (t c : String) :
    (lookupA ((lookupA (ensureChain r t c) t).getD []) c).getD []
      = getRules r t c := by
  unfold ensureChain getRules
  cases h1 : lookupA r t with
  | none =>
      simp [h1, lookupA_setA_self, setA_setA, lookupA, setA]
  | some cm =>
      cases h2 : lookupA cm c with
      | none => simp [h1, h2, lookupA_setA_self, setA, lookupA]
      | some cur => simp [h1, h2]

/-- Writing a rule list through the two-level map write is read back as is. -/
theorem getRules_setA_setA (r : RulesMap) (cm : ChainMap) (t c : String)
    (l : List String) :
    getRules (setA r t (setA cm c l)) t c = l := by
  unfold getRules
  rw [lookupA_setA_self, Option.getD_some, lookupA_setA_self, Option.getD_some]

/-! Helper lemmas about the insert position logic. -/

/-- The placeholder-append-then-copy trick of Insert is insertion right
before the element at zero-based index p-1. -/
theorem goInsertTrick (l : List String) (p : Nat) (rule : String)
    (h2 : 2 ≤ p) (hle : p ≤ l.length) :
    (goCopyTail (l ++ ["newvalue"]) (p - 1) (p - 2)).set (p - 1) rule
      = l.take (p - 1) ++ rule :: l.drop (p - 1) := by
  have hlen : (l ++ ["newvalue"]).length = l.length + 1 := by simp
  have h1 : (l ++ ["newvalue"]).take (p - 1) = l.take (p - 1) :=
    List.take_append_of_le_length (by omega)
  have hdrop : (l ++ ["newvalue"]).drop (p - 2) = l.drop (p - 2) ++ ["newvalue"] :=
    List.drop_append_of_le_length (by omega)
  have htake2 : (l.drop (p - 2) ++ ["newvalue"]).take ((l ++ ["newvalue"]).length - (p - 1))
      = l.drop (p - 2) := by
    rw [hlen]
    have he : l.length + 1 - (p - 1) = (l.drop (p - 2)).length := by
      simp only [List.length_drop]
      omega
    rw [he, List.take_left]
  have hg : goCopyTail (l ++ ["newvalue"]) (p - 1) (p - 2)
      = l.take (p - 1) ++ l.drop (p - 2) := by
    unfold goCopyTail
    rw [h1, hdrop, htake2]
  rw [hg]
  have htlen : (l.take (p - 1)).length = p - 1 := by
    simp only [List.length_take]
    omega
  rw [List.set_append_right _ _ (le_of_eq htlen), htlen, Nat.sub_self]
  have hplt : p - 2 < l.length := by omega
  rw [List.drop_eq_getElem_cons hplt]
  have he2 : p - 2 + 1 = p - 1 := by omega
  rw [he2, List.set_cons_zero]

theorem insertAtPos_one (l : List String) (rule : String) :
    insertAtPos l 1 rule = some (rule :: l) := by
  simp [insertAtPos]

theorem insertAtPos_beyond (l : List String) (rule : String) (pos : Int)
    (h : (l.length : Int) < pos) :
    insertAtPos l pos rule = some (l ++ [rule]) := by
  unfold insertAtPos
  by_cases h1 : pos = 1
  · subst h1
    have h0 : l.length = 0 := by omega
    have hl : l = [] := List.length_eq_zero.mp h0
    subst hl
    simp
  · rw [if_neg h1, if_pos h]

theorem insertAtPos_middle (l : List String) (rule : String) (pos : Int)
    (h2 : 2 ≤ pos) (hle : pos ≤ (l.length : Int)) :
    insertAtPos l pos rule
      = some (l.take (pos - 1).toNat ++ rule :: l.drop (pos - 1).toNat) := by
  have hne : ¬ pos = 1 := by omega
  have hnlt : ¬ ((l.length : Int) < pos) := by omega
  have hnlt2 : ¬ pos < 2 := by omega
  unfold insertAtPos
  rw [if_neg hne, if_neg hnlt, if_neg hnlt2]
  have e1 : (pos - 1).toNat = pos.toNat - 1 := by omega
  have e2 : (pos - 2).toNat = pos.toNat - 2 := by omega
  have h2n : 2 ≤ pos.toNat := by omega
  have hlen : pos.toNat ≤ l.length := by omega
  simp only [e1, e2]
  rw [goInsertTrick l pos.toNat rule h2n hlen]

theorem insertAtPos_panic (l : List String) (rule : String) (pos : Int)
    (hpos : pos ≤ 0) :
    insertAtPos l pos rule = none := by
  unfold insertAtPos
  rw [if_neg (by omega : ¬ pos = 1),
    if_neg (by omega : ¬ ((l.length : Int) < pos)),
    if_pos (by omega : pos < 2)]

theorem insertAtPos_isSome (l : List String) (rule : String) (pos : Int)
    (hpos : 1 ≤ pos) :
    (insertAtPos l pos rule).isSome = true := by
  unfold insertAtPos
  by_cases h1 : pos = 1
  · simp [h1]
  · by_cases hb : (l.length : Int) < pos
    · simp [h1, hb]
    · have hn2 : ¬ pos < 2 := by omega
      simp [h1, hb, hn2]

/-- Reduction of the batched Insert to the position logic on the cached
rule list of the addressed chain. -/
theorem Insert_batch_chain (ipt : BaseIPT) (s : BatchState) (table chain : String)
    (pos : Int) (rulespec : List String) (hb : table ∈ s.batchTables)
    (newl : List String)
    (hi : insertAtPos (getRules s.rules table chain) pos
        (String.intercalate " " rulespec) = some newl) :
    (Insert ipt s table chain pos rulespec).map (fun o => getRules o.rules table chain)
      = some newl := by
  simp only [Insert, if_pos hb, ensureChain_lookup, hi, Option.map_some']
  exact congrArg some (getRules_setA_setA _ _ _ _ _)

/-! Helper lemmas about the delete logic. -/

theorem firstMatchIdxAux_bound (rule : String) (l : List String) :
    ∀ (k i : Nat), firstMatchIdxAux rule l k = some i → k ≤ i ∧ i < k + l.length := by
  induction l with
  | nil => intro k i h; simp [firstMatchIdxAux] at h
  | cons r rest ih =>
      intro k i h
      by_cases hr : (rule == r) = true
      · simp only [firstMatchIdxAux, if_pos hr, Option.some.injEq] at h
        simp only [List.length_cons]
        omega
      · simp only [firstMatchIdxAux, if_neg hr] at h
        have hk := ih (k + 1) i h
        simp only [List.length_cons]
        omega

theorem firstMatchIdx_lt_length (rule : String) (l : List String) (i : Nat)
    (h : firstMatchIdx rule l = some i) : i < l.length := by
  have hk := firstMatchIdxAux_bound rule l 0 i h
  omega

theorem removeAtGo_eq (l : List String) (i : Nat) (h : i < l.length) :
    removeAtGo l i = l.take i ++ l.drop (i + 1) := by
  unfold removeAtGo
  by_cases h0 : i = 0
  · subst h0
    by_cases hl : l.length = 1
    · rw [if_pos rfl, if_pos hl, List.take_zero, List.nil_append,
        List.drop_eq_nil_of_le (by omega)]
    · rw [if_pos rfl, if_neg hl, List.take_zero, List.nil_append]
  · by_cases hl : i = l.length - 1
    · rw [if_neg h0, if_pos hl, List.drop_eq_nil_of_le (by omega), List.append_nil]
    · rw [if_neg h0, if_neg hl]

/-! The claims. -/

/-- Claim C1: for every table in the batch set and every chain, Insert at
position 1 makes the serialized rule the first element of the rule list of
the chain; Insert past the current length appends it as the last element;
and Insert at any position between 2 and the length places it immediately
before the element currently at that one-based position, shifting that
element and all later ones one place back while preserving relative order. -/
theorem C1_insert_position_semantics (ipt : BaseIPT) (s : BatchState)
    (table chain : String) (pos : Int) (rulespec : List String)
    (hb : table ∈ s.batchTables) :
    (pos = 1 →
      (Insert ipt s table chain pos rulespec).map (fun o => getRules o.rules table chain)
        = some (String.intercalate " " rulespec :: getRules s.rules table chain)) ∧
    (((getRules s.rules table chain).length : Int) < pos →
      (Insert ipt s table chain pos rulespec).map (fun o => getRules o.rules table chain)
        = some (getRules s.rules table chain ++ [String.intercalate " " rulespec])) ∧
    (2 ≤ pos → pos ≤ ((getRules s.rules table chain).length : Int) →
      (Insert ipt s table chain pos rulespec).map (fun o => getRules o.rules table chain)
        = some ((getRules s.rules table chain).take (pos - 1).toNat
            ++ String.intercalate " " rulespec
              :: (getRules s.rules table chain).drop (pos - 1).toNat)) := by
  refine ⟨?_, ?_, ?_⟩
  · intro h1
    subst h1
    exact Insert_batch_chain ipt s table chain 1 rulespec hb _ (insertAtPos_one _ _)
  · intro h1
    exact Insert_batch_chain ipt s table chain pos rulespec hb _
      (insertAtPos_beyond _ _ _ h1)
  · intro h1 h2
    exact Insert_batch_chain ipt s table chain pos rulespec hb _
      (insertAtPos_middle _ _ _ h1 h2)

/-- Witness for C1: on the chain [a, b, c], Insert at position 2 of rule x
yields [a, x, b, c]. -/
theorem C1_witness :
    (Insert iptSample
        { rules := [("nat", [("PREROUTING", ["a", "b", "c"])])], batchTables := ["nat"] }
        "nat" "PREROUTING" 2 ["x"]).map
      (fun o => getRules o.rules "nat" "PREROUTING") = some ["a", "x", "b", "c"] := by
  have h := (C1_insert_position_semantics iptSample
      { rules := [("nat", [("PREROUTING", ["a", "b", "c"])])], batchTables := ["nat"] }
      "nat" "PREROUTING" 2 ["x"] (by decide)).2.2 (by decide) (by decide)
  exact h.trans (by decide)

/-- Claim C9: on a batch table, the placeholder-append-then-copy branch of
Insert evaluates a slice bound pos - 2 below zero for every pos at most 0,
modelled as the none outcome (the runtime panic of the program); the guard
is unreachable exactly when pos is at least 1. -/
theorem C9_insert_panic_guard (ipt : BaseIPT) (s : BatchState)
    (table chain : String) (pos : Int) (rulespec : List String)
    (hb : table ∈ s.batchTables) :
    (pos ≤ 0 → Insert ipt s table chain pos rulespec = none) ∧
    (1 ≤ pos → (Insert ipt s table chain pos rulespec).isSome = true) := by
  constructor
  · intro hp
    simp only [Insert, if_pos hb, ensureChain_lookup, insertAtPos_panic _ _ _ hp]
  · intro hp
    simp only [Insert, if_pos hb, ensureChain_lookup]
    have hs := insertAtPos_isSome (getRules s.rules table chain)
      (String.intercalate " " rulespec) pos hp
    obtain ⟨nl, hnl⟩ := Option.isSome_iff_exists.mp hs
    rw [hnl]
    rfl

/-- Witness for C9: Insert at position 0 on an existing one-element chain
panics, while position 1 succeeds. -/
theorem C9_witness :
    Insert iptSample
        { rules := [("nat", [("PREROUTING", ["a"])])], batchTables := ["nat"] }
        "nat" "PREROUTING" 0 ["x"] = none ∧
    (Insert iptSample
        { rules := [("nat", [("PREROUTING", ["a"])])], batchTables := ["nat"] }
        "nat" "PREROUTING" 1 ["x"]).isSome = true := by
  constructor
  · exact (C9_insert_panic_guard iptSample
      { rules := [("nat", [("PREROUTING", ["a"])])], batchTables := ["nat"] }
      "nat" "PREROUTING" 0 ["x"] (by decide)).1 (by decide)
  · exact (C9_insert_panic_guard iptSample
      { rules := [("nat", [("PREROUTING", ["a"])])], batchTables := ["nat"] }
      "nat" "PREROUTING" 1 ["x"] (by decide)).2 (by decide)

/-- Claim C2: for every table in the batch set, Delete returns no error and
makes no passthrough call; if the table, the chain, or a matching rule is
absent it leaves the cache unchanged, and otherwise it removes exactly the
first element equal to the serialized rulespec, keeping the relative order
of all remaining elements. -/
theorem C2_delete_semantics (ipt : BaseIPT) (s : BatchState) (table chain : String)
    (rulespec : List String) (hb : table ∈ s.batchTables) :
    (Delete ipt s table chain rulespec).err = none ∧
    (Delete ipt s table chain rulespec).calls = [] ∧
    (lookupA s.rules table = none → (Delete ipt s table chain rulespec).rules = s.rules) ∧
    (∀ cm, lookupA s.rules table = some cm → lookupA cm chain = none →
      (Delete ipt s table chain rulespec).rules = s.rules) ∧
    (∀ cm cur, lookupA s.rules table = some cm → lookupA cm chain = some cur →
      firstMatchIdx (String.intercalate " " rulespec) cur = none →
      (Delete ipt s table chain rulespec).rules = s.rules) ∧
    (∀ cm cur i, lookupA s.rules table = some cm → lookupA cm chain = some cur →
      firstMatchIdx (String.intercalate " " rulespec) cur = some i →
      (Delete ipt s table chain rulespec).rules
        = setA s.rules table (setA cm chain (cur.take i ++ cur.drop (i + 1)))) := by
  refine ⟨?_, ?_, ?_, ?_, ?_, ?_⟩
  · cases h1 : lookupA s.rules table with
    | none => simp [Delete, hb, h1]
    | some cm =>
        cases h2 : lookupA cm chain with
        | none => simp [Delete, hb, h1, h2]
        | some cur =>
            cases h3 : firstMatchIdx (String.intercalate " " rulespec) cur with
            | none => simp [Delete, hb, h1, h2, h3]
            | some i => simp [Delete, hb, h1, h2, h3]
  · cases h1 : lookupA s.rules table with
    | none => simp [Delete, hb, h1]
    | some cm =>
        cases h2 : lookupA cm chain with
        | none => simp [Delete, hb, h1, h2]
        | some cur =>
            cases h3 : firstMatchIdx (String.intercalate " " rulespec) cur with
            | none => simp [Delete, hb, h1, h2, h3]
            | some i => simp [Delete, hb, h1, h2, h3]
  · intro h1
    simp [Delete, hb, h1]
  · intro cm h1 h2
    simp [Delete, hb, h1, h2]
  · intro cm cur h1 h2 h3
    simp [Delete, hb, h1, h2, h3]
  · intro cm cur i h1 h2 h3
    simp only [Delete, if_pos hb, h1, h2, h3]
    rw [removeAtGo_eq cur i (firstMatchIdx_lt_length _ _ _ h3)]

/-- Witness for C2: deleting b from the chain [a, b, c] yields [a, c] with
no error reported. -/
theorem C2_witness :
    (Delete iptSample
        { rules := [("nat", [("PREROUTING", ["a", "b", "c"])])], batchTables := ["nat"] }
        "nat" "PREROUTING" ["b"]).err = none ∧
    (Delete iptSample
        { rules := [("nat", [("PREROUTING", ["a", "b", "c"])])], batchTables := ["nat"] }
        "nat" "PREROUTING" ["b"]).rules = [("nat", [("PREROUTING", ["a", "c"])])] := by
  have h := C2_delete_semantics iptSample
      { rules := [("nat", [("PREROUTING", ["a", "b", "c"])])], batchTables := ["nat"] }
      "nat" "PREROUTING" ["b"] (by decide)
  refine ⟨h.1, ?_⟩
  have h6 := h.2.2.2.2.2 [("PREROUTING", ["a", "b", "c"])] ["a", "b", "c"] 1
    (by decide) (by decide) (by decide)
  exact h6.trans (by decide)

/-- Claim C3: with the cache holding exactly the table nat with the chain
PREROUTING and the rule list [-j DNAT, -p tcp], the buffer serialized at
Commit is exactly the expected iptables-restore program. -/
theorem C3_commit_buffer :
    commitBuffer { rules := [("nat", [("PREROUTING", ["-j DNAT", "-p tcp"])])],
                   batchTables := ["nat"] }
      = some "*nat\n:PREROUTING - [0:0]\n-A PREROUTING -j DNAT\n-A PREROUTING -p tcp\nCOMMIT\n" := by
  decide

/-- Counterexample to C4: at a concrete accepted connection whose
original-destination recovery fails, Accept returns the error but the
close flag is false: the source of Accept contains no Close call, so the
connection is never closed before the error is returned. -/
theorem C4_close_counterexample :
    Accept { acceptResult := Except.ok (), isTCP := true,
             origDest := Except.error "Failed to get original destination" }
      = (Except.error "Failed to get original destination", false) := rfl

/-- Claim C4 as amended: whenever original-destination recovery fails on an
accepted TCP connection, Accept returns the error to the caller and never
hands the connection onward; it does not, however, close the accepted
connection. -/
theorem C4_reject_on_failure (env : AcceptEnv) (h1 : env.acceptResult = Except.ok ())
    (h2 : env.isTCP = true) (e : String) (h3 : env.origDest = Except.error e) :
    Accept env = (Except.error e, false) := by
  simp [Accept, h1, h2, h3]

/-- Witness for the amended C4. -/
theorem C4_witness :
    Accept { acceptResult := Except.ok (), isTCP := true,
             origDest := Except.error "query failed" }
      = (Except.error "query failed", false) :=
  C4_reject_on_failure _ rfl rfl "query failed" rfl

/-- Claim C5: the original-destination decoder returns, for IPv4, the port
as the big-endian value of the first two data bytes and the address as the
following four bytes, and for IPv6 the big-endian two-byte port field and
the sixteen-byte address field; it returns an error whenever the family tag
differs from the one expected for the chosen protocol. -/
theorem C5_origdest_decode (e4 : Nat) (a4 : Sockaddr4) (e6 : Nat) (a6 : Sockaddr6) :
    (∀ d0 d1 d2 d3 d4 d5 rest, e4 = 0 → a4.family = AF_INET →
      a4.data = d0 :: d1 :: d2 :: d3 :: d4 :: d5 :: rest →
      getOriginalDestInternal true true e4 a4 e6 a6
        = Except.ok ([d2, d3, d4, d5], d0 * 256 + d1)) ∧
    (∀ p0 p1 prest, e6 = 0 → a6.family = AF_INET6 →
      a6.port = p0 :: p1 :: prest →
      getOriginalDestInternal false true e4 a4 e6 a6
        = Except.ok (a6.ip, p0 * 256 + p1)) ∧
    (a4.family ≠ AF_INET → ∃ msg,
      getOriginalDestInternal true true e4 a4 e6 a6 = Except.error msg) ∧
    (a6.family ≠ AF_INET6 → ∃ msg,
      getOriginalDestInternal false true e4 a4 e6 a6 = Except.error msg) := by
  refine ⟨?_, ?_, ?_, ?_⟩
  · intro d0 d1 d2 d3 d4 d5 rest he hf hd
    simp [getOriginalDestInternal, getsockopt4, he, hf, hd, Nat.shiftLeft_eq]
  · intro p0 p1 prest he hf hp
    simp [getOriginalDestInternal, getsockopt6, he, hf, hp, Nat.shiftLeft_eq]
  · intro hf
    by_cases he : e4 = 0
    · refine ⟨"invalid address family. Expected AF_INET", ?_⟩
      simp [getOriginalDestInternal, getsockopt4, he, hf]
    · refine ⟨"Failed to get original destination", ?_⟩
      simp [getOriginalDestInternal, getsockopt4, he]
  · intro hf
    by_cases he : e6 = 0
    · refine ⟨"invalid address family. Expected AF_INET6", ?_⟩
      simp [getOriginalDestInternal, getsockopt6, he, hf]
    · refine ⟨"Failed to get original destination", ?_⟩
      simp [getOriginalDestInternal, getsockopt6, he]

/-- Witness for C5: a synthetic IPv4 response with address 192.168.1.1 and
port 80 decodes to that pair, and the same bytes under a wrong family tag
are rejected. -/
theorem C5_witness :
    getOriginalDestInternal true true 0
        { family := 2, data := [0, 80, 192, 168, 1, 1, 0, 0, 0, 0, 0, 0, 0, 0] } 0
        { family := 10, port := [0, 0], flowInfo := [0, 0, 0, 0], ip := [],
          scopeID := [0, 0, 0, 0] }
      = Except.ok ([192, 168, 1, 1], 80) ∧
    (∃ msg, getOriginalDestInternal true true 0
        { family := 10, data := [0, 80, 192, 168, 1, 1, 0, 0, 0, 0, 0, 0, 0, 0] } 0
        { family := 10, port := [0, 0], flowInfo := [0, 0, 0, 0], ip := [],
          scopeID := [0, 0, 0, 0] }
      = Except.error msg) := by
  constructor
  · have h := (C5_origdest_decode 0
        ⟨2, [0, 80, 192, 168, 1, 1, 0, 0, 0, 0, 0, 0, 0, 0]⟩ 0
        ⟨10, [0, 0], [0, 0, 0, 0], [], [0, 0, 0, 0]⟩).1
        0 80 192 168 1 1 [0, 0, 0, 0, 0, 0, 0, 0] rfl rfl rfl
    exact h.trans (by simp)
  · exact (C5_origdest_decode 0
        ⟨10, [0, 80, 192, 168, 1, 1, 0, 0, 0, 0, 0, 0, 0, 0]⟩ 0
        ⟨10, [0, 0], [0, 0, 0, 0], [], [0, 0, 0, 0]⟩).2.2.1 (by decide)

/-- Claim C6: the capability probe reports unsupported when the version
invocation fails, when the combined output holds no token of the
v-prefixed semantic-version pattern, and when the extracted token does not
parse; otherwise it reports supported exactly when the parsed version is at
least 1.6.2. -/
theorem C6_capability_probe (out : List Char) :
    restoreHasWait none = false ∧
    (findVersionToken out = none → restoreHasWait (some out) = false) ∧
    (∀ m, findVersionToken out = some m → parseVersion m = none →
      restoreHasWait (some out) = false) ∧
    (∀ m v, findVersionToken out = some m → parseVersion m = some v →
      (restoreHasWait (some out) = true ↔ segLt v [1, 6, 2] = false)) := by
  refine ⟨rfl, ?_, ?_, ?_⟩
  · intro h
    simp [restoreHasWait, h]
  · intro m h1 h2
    simp [restoreHasWait, h1, h2]
  · intro m v h1 h2
    have hmin : parseVersion ['1', '.', '6', '.', '2'] = some [1, 6, 2] := by decide
    simp [restoreHasWait, h1, h2, hmin]

/-- Witness for C6: output carrying v1.6.2 is reported supported. -/
theorem C6_witness :
    restoreHasWait (some ("iptables-restore v1.6.2".toList)) = true := by
  have h := (C6_capability_probe ("iptables-restore v1.6.2".toList)).2.2.2
      ("1.6.2".toList) [1, 6, 2] (by decide) (by decide)
  exact h.mpr (by decide)

/-- Claim C7: ListChains always forwards to the passthrough applier, returns
its result unchanged, and neither reads nor alters the cached rules: the
outcome is independent of the cache and the cache is returned untouched. -/
theorem C7_listchains_forwarded (ipt : BaseIPT) (s : BatchState) (table : String) :
    ListChains ipt s table
      = { res := ipt.listChains table, rules := s.rules,
          calls := [PCall.listChains table] } := rfl

/-- Claim C8: for a table outside the batch set, each of Append, Insert,
Delete, ClearChain, DeleteChain and NewChain forwards exactly once to the
passthrough applier, returns its result unchanged, and leaves the cached
rules exactly as they were. -/
theorem C8_passthrough_frame (ipt : BaseIPT) (s : BatchState) (table chain : String)
    (pos : Int) (rulespec : List String) (hb : table ∉ s.batchTables) :
    Append ipt s table chain rulespec
      = { err := ipt.append table chain rulespec, rules := s.rules,
          calls := [PCall.append table chain rulespec] } ∧
    Insert ipt s table chain pos rulespec
      = some { err := ipt.insert table chain pos rulespec, rules := s.rules,
               calls := [PCall.insert table chain pos rulespec] } ∧
    Delete ipt s table chain rulespec
      = { err := ipt.delete table chain rulespec, rules := s.rules,
          calls := [PCall.delete table chain rulespec] } ∧
    ClearChain ipt s table chain
      = { err := ipt.clearChain table chain, rules := s.rules,
          calls := [PCall.clearChain table chain] } ∧
    DeleteChain ipt s table chain
      = { err := ipt.deleteChain table chain, rules := s.rules,
          calls := [PCall.deleteChain table chain] } ∧
    NewChain ipt s table chain
      = { err := ipt.newChain table chain, rules := s.rules,
          calls := [PCall.newChain table chain] } := by
  refine ⟨?_, ?_, ?_, ?_, ?_, ?_⟩ <;>
    simp [Append, Insert, Delete, ClearChain, DeleteChain, NewChain, hb]

/-- Witness for C8: the six operations on the non-batch table filter. -/
theorem C8_witness :
    Append iptSample
        { rules := [("nat", [("PREROUTING", ["a"])])], batchTables := ["nat"] }
        "filter" "INPUT" ["-j", "DROP"]
      = { err := iptSample.append "filter" "INPUT" ["-j", "DROP"],
          rules := [("nat", [("PREROUTING", ["a"])])],
          calls := [PCall.append "filter" "INPUT" ["-j", "DROP"]] } ∧
    Insert iptSample
        { rules := [("nat", [("PREROUTING", ["a"])])], batchTables := ["nat"] }
        "filter" "INPUT" 2 ["-j", "DROP"]
      = some { err := iptSample.insert "filter" "INPUT" 2 ["-j", "DROP"],
               rules := [("nat", [("PREROUTING", ["a"])])],
               calls := [PCall.insert "filter" "INPUT" 2 ["-j", "DROP"]] } ∧
    Delete iptSample
        { rules := [("nat", [("PREROUTING", ["a"])])], batchTables := ["nat"] }
        "filter" "INPUT" ["-j", "DROP"]
      = { err := iptSample.delete "filter" "INPUT" ["-j", "DROP"],
          rules := [("nat", [("PREROUTING", ["a"])])],
          calls := [PCall.delete "filter" "INPUT" ["-j", "DROP"]] } ∧
    ClearChain iptSample
        { rules := [("nat", [("PREROUTING", ["a"])])], batchTables := ["nat"] }
        "filter" "INPUT"
      = { err := iptSample.clearChain "filter" "INPUT",
          rules := [("nat", [("PREROUTING", ["a"])])],
          calls := [PCall.clearChain "filter" "INPUT"] } ∧
    DeleteChain iptSample
        { rules := [("nat", [("PREROUTING", ["a"])])], batchTables := ["nat"] }
        "filter" "INPUT"
      = { err := iptSample.deleteChain "filter" "INPUT",
          rules := [("nat", [("PREROUTING", ["a"])])],
          calls := [PCall.deleteChain "filter" "INPUT"] } ∧
    NewChain iptSample
        { rules := [("nat", [("PREROUTING", ["a"])])], batchTables := ["nat"] }
        "filter" "INPUT"
      = { err := iptSample.newChain "filter" "INPUT",
          rules := [("nat", [("PREROUTING", ["a"])])],
          calls := [PCall.newChain "filter" "INPUT"] } :=
  C8_passthrough_frame iptSample
    { rules := [("nat", [("PREROUTING", ["a"])])], batchTables := ["nat"] }
    "filter" "INPUT" 2 ["-j", "DROP"] (by decide)

/-- Claim C10: for a batch table, NewChain unconditionally resets the rule
list of the chain to empty, discarding any rules it held, and applying it a
second time changes nothing further. -/
theorem C10_newchain_unconditional_reset (ipt : BaseIPT) (s : BatchState)
    (table chain : String) (hb : table ∈ s.batchTables) :
    (NewChain ipt s table chain).err = none ∧
    getRules (NewChain ipt s table chain).rules table chain = [] ∧
    NewChain ipt { rules := (NewChain ipt s table chain).rules,
                   batchTables := s.batchTables } table chain
      = NewChain ipt s table chain := by
  refine ⟨?_, ?_, ?_⟩
  · cases h1 : lookupA s.rules table <;> simp [NewChain, hb, h1]
  · cases h1 : lookupA s.rules table <;>
      simp [NewChain, hb, h1, getRules_setA_setA]
  · cases h1 : lookupA s.rules table with
    | none => simp [NewChain, hb, h1, lookupA_setA_self, setA_setA, setA]
    | some cm => simp [NewChain, hb, h1, lookupA_setA_self, setA_setA]

/-- Witness for C10: NewChain on a chain holding two rules empties it. -/
theorem C10_witness :
    getRules (NewChain iptSample
        { rules := [("nat", [("PREROUTING", ["a", "b"])])], batchTables := ["nat"] }
        "nat" "PREROUTING").rules "nat" "PREROUTING" = [] :=
  (C10_newchain_unconditional_reset iptSample
    { rules := [("nat", [("PREROUTING", ["a", "b"])])], batchTables := ["nat"] }
    "nat" "PREROUTING" (by decide)).2.1

end Trireme
